import Mathlib

/-
Verification of the analytic coverage evaluator of WGPUFontRenderer
(the WGSL function computeCoverage embedded in src/rust.rs).

Modelling conventions:
* WGSL f32 values are modelled as real numbers; f32 arithmetic is ideal
  real arithmetic.  The sole place where IEEE special values can arise on
  finite inputs is the unguarded division of the linear branch, where a
  zero divisor yields NaN or an infinity; each of those fails the
  0 <= t < 1 root-validity test, which the model captures with the
  sentinel value -1 (see scanlineRoots).
* The shader globals antiAliasingWindowSize and the screen-space
  derivative fwidth(uv) enter the function only through the product
  inverseDiameter = 1 / (antiAliasingWindowSize * fwidth(uv)); since
  fwidth is a cross-fragment GPU derivative, inverseDiameter is taken as
  an explicit input, as is the enableSuperSamplingAntiAliasing toggle.
-/

/-- A 2D vector of reals, modelling WGSL vec2 of f32. -/
@[ext]
structure Vec2 where
  x : ℝ
  y : ℝ

instance : Add Vec2 := ⟨fun u v => ⟨u.x + v.x, u.y + v.y⟩⟩

instance : Sub Vec2 := ⟨fun u v => ⟨u.x - v.x, u.y - v.y⟩⟩

instance : HMul ℝ Vec2 Vec2 := ⟨fun r v => ⟨r * v.x, r * v.y⟩⟩

/-- WGSL clamp(e, lo, hi) = min(max(e, lo), hi). -/
noncomputable def clamp (e lo hi : ℝ) : ℝ := min (max e lo) hi

/-- a = p0 - 2.0 * p1 + p2 from the source's simplified abc formula. -/
noncomputable def curveA (p0 p1 p2 : Vec2) : Vec2 := p0 - (2 : ℝ) * p1 + p2

/-- b = p0 - p1 from the source's simplified abc formula. -/
noncomputable def curveB (p0 p1 : Vec2) : Vec2 := p0 - p1

/-- c = p0 from the source's simplified abc formula. -/
noncomputable def curveC (p0 : Vec2) : Vec2 := p0

/-- The root-finding step of computeCoverage (source lines "Solve for
roots").  none models the early return 0.0 taken when radicand <= 0.0;
some (t0, t1) carries the two root slots, a slot holding -1 when the
source leaves it at its sentinel.  In the linear branch the source divides
by p0.y - p2.y without a guard; in IEEE f32 a zero divisor produces NaN
(when p0.y = 0) or an infinity, and every one of those values fails the
later test 0 <= t and t < 1, exactly as the sentinel -1 does, so the
model writes -1 for the quotient in that case. -/
noncomputable def scanlineRoots (p0 p1 p2 : Vec2) : Option (ℝ × ℝ) :=
  let a := curveA p0 p1 p2
  let b := curveB p0 p1
  let c := curveC p0
  if |a.y| ≥ 1e-5 then
    -- Quadratic case
    let radicand := b.y * b.y - a.y * c.y
    if radicand ≤ 0 then none
    else
      let s := Real.sqrt radicand
      some ((b.y - s) / a.y, (b.y + s) / a.y)
  else
    -- Linear case
    let t := if p0.y - p2.y = 0 then (-1 : ℝ) else p0.y / (p0.y - p2.y)
    if p0.y < p2.y then some (-1, t) else some (t, -1)

/-- One root's contribution to alpha: the validity test 0 <= t < 1, the
local x-coordinate x(t) = (a.x * t - 2 * b.x) * t + c.x, and the ramp
clamp(x * invD + 0.5, 0, 1); 0 for an invalid root. -/
noncomputable def rampContribution (invD : ℝ) (a b c : Vec2) (t : ℝ) : ℝ :=
  if 0 ≤ t ∧ t < 1 then
    clamp (((a.x * t - 2 * b.x) * t + c.x) * invD + 0.5) 0 1
  else 0

/-- The "Calculate alpha" block: alpha starts at 0, the t0 contribution is
added and the t1 contribution subtracted. -/
noncomputable def accumAlpha (invD : ℝ) (a b c : Vec2) (t0 t1 : ℝ) : ℝ :=
  rampContribution invD a b c t0 - rampContribution invD a b c t1

/-- The accumulated signed alpha of computeCoverage just before the final
clamp; the early returns of the source are modelled as the value 0, which
the final clamp maps to itself.  When supersampling is enabled the source
assigns rotated_p0, rotated_p1, rotated_p2 := (p.y, -p.x) but never reads
them: its rotated pass reuses a, b, c, t0, t1 of the primary pass verbatim
and only switches to inverseDiameter.y, which is what the term below
does. -/
noncomputable def signedDelta (ssaa : Bool) (inverseDiameter : Vec2)
    (p0 p1 p2 : Vec2) : ℝ :=
  -- Skip if the curve is entirely above or below the UV
  if p0.y > 0 ∧ p1.y > 0 ∧ p2.y > 0 then 0
  else if p0.y < 0 ∧ p1.y < 0 ∧ p2.y < 0 then 0
  else
    match scanlineRoots p0 p1 p2 with
    | none => 0
    | some (t0, t1) =>
        let a := curveA p0 p1 p2
        let b := curveB p0 p1
        let c := curveC p0
        accumAlpha inverseDiameter.x a b c t0 t1
          + (if ssaa then accumAlpha inverseDiameter.y a b c t0 t1 else 0)

/-- The full evaluator: the source ends with return clamp(alpha, 0.0, 1.0),
and each early return 0.0 agrees with clamp 0 0 1 = 0. -/
noncomputable def computeCoverage (ssaa : Bool) (inverseDiameter : Vec2)
    (p0 p1 p2 : Vec2) : ℝ :=
  clamp (signedDelta ssaa inverseDiameter p0 p1 p2) 0 1

/-- Reflection of a point across the scanline y = 0. -/
noncomputable def negY (v : Vec2) : Vec2 := ⟨v.x, -v.y⟩

/-- The 90-degree rotation (x, y) to (y, -x) that the source computes for
its supersampling pass. -/
noncomputable def rotate90 (v : Vec2) : Vec2 := ⟨v.y, -v.x⟩

/-- Modelled from the spec: the supersampling refinement as section 4.1
step 5 describes it, repeating the crossing accumulation on the curve
whose coordinates are rotated by (x, y) to (y, -x), with the rotated
component inverseDiameter.y, so the crossing roots and x-values are those
of the rotated curve.  This is the comparison point for the source's
supersampling pass, which reuses the unrotated data. -/
noncomputable def rotatedAlphaSpec (invDy : ℝ) (p0 p1 p2 : Vec2) : ℝ :=
  match scanlineRoots (rotate90 p0) (rotate90 p1) (rotate90 p2) with
  | none => 0
  | some (t0, t1) =>
      accumAlpha invDy (curveA (rotate90 p0) (rotate90 p1) (rotate90 p2))
        (curveB (rotate90 p0) (rotate90 p1)) (curveC (rotate90 p0)) t0 t1

/-- Modelled from the spec: the whole evaluator with the supersampling
pass of rotatedAlphaSpec in place of the source's pass. -/
noncomputable def computeCoverageSpec (inverseDiameter : Vec2)
    (p0 p1 p2 : Vec2) : ℝ :=
  if p0.y > 0 ∧ p1.y > 0 ∧ p2.y > 0 then 0
  else if p0.y < 0 ∧ p1.y < 0 ∧ p2.y < 0 then 0
  else
    match scanlineRoots p0 p1 p2 with
    | none => 0
    | some (t0, t1) =>
        clamp (accumAlpha inverseDiameter.x (curveA p0 p1 p2) (curveB p0 p1)
            (curveC p0) t0 t1
          + rotatedAlphaSpec inverseDiameter.y p0 p1 p2) 0 1

theorem vec2_add_x (u v : Vec2) : (u + v).x = u.x + v.x := rfl

theorem vec2_add_y (u v : Vec2) : (u + v).y = u.y + v.y := rfl

theorem vec2_sub_x (u v : Vec2) : (u - v).x = u.x - v.x := rfl

theorem vec2_sub_y (u v : Vec2) : (u - v).y = u.y - v.y := rfl

theorem vec2_smul_x (r : ℝ) (v : Vec2) : (r * v).x = r * v.x := rfl

theorem vec2_smul_y (r : ℝ) (v : Vec2) : (r * v).y = r * v.y := rfl

theorem curveA_x (p0 p1 p2 : Vec2) :
    (curveA p0 p1 p2).x = p0.x - 2 * p1.x + p2.x := rfl

theorem curveA_y (p0 p1 p2 : Vec2) :
    (curveA p0 p1 p2).y = p0.y - 2 * p1.y + p2.y := rfl

theorem curveB_x (p0 p1 : Vec2) : (curveB p0 p1).x = p0.x - p1.x := rfl

theorem curveB_y (p0 p1 : Vec2) : (curveB p0 p1).y = p0.y - p1.y := rfl

theorem curveC_x (p0 : Vec2) : (curveC p0).x = p0.x := rfl

theorem curveC_y (p0 : Vec2) : (curveC p0).y = p0.y := rfl

theorem clamp_nonneg (e : ℝ) : 0 ≤ clamp e 0 1 :=
  le_min (le_max_right e 0) zero_le_one

theorem clamp_le_one (e : ℝ) : clamp e 0 1 ≤ 1 := min_le_right (max e 0) 1

theorem clamp_zero : clamp 0 0 1 = 0 := by norm_num [clamp]

theorem rampContribution_sentinel (d : ℝ) (a b c : Vec2) :
    rampContribution d a b c (-1) = 0 := by
  norm_num [rampContribution]

theorem scanlineRoots_of_nonpos_radicand (p0 p1 p2 : Vec2)
    (hA : |(curveA p0 p1 p2).y| ≥ 1e-5)
    (hR : (curveB p0 p1).y * (curveB p0 p1).y
        - (curveA p0 p1 p2).y * (curveC p0).y ≤ 0) :
    scanlineRoots p0 p1 p2 = none := by
  simp only [scanlineRoots]
  rw [if_pos hA, if_pos hR]

theorem scanlineRoots_of_pos_radicand (p0 p1 p2 : Vec2)
    (hA : |(curveA p0 p1 p2).y| ≥ 1e-5)
    (hR : 0 < (curveB p0 p1).y * (curveB p0 p1).y
        - (curveA p0 p1 p2).y * (curveC p0).y) :
    scanlineRoots p0 p1 p2 =
      some (((curveB p0 p1).y - Real.sqrt ((curveB p0 p1).y * (curveB p0 p1).y
            - (curveA p0 p1 p2).y * (curveC p0).y)) / (curveA p0 p1 p2).y,
        ((curveB p0 p1).y + Real.sqrt ((curveB p0 p1).y * (curveB p0 p1).y
            - (curveA p0 p1 p2).y * (curveC p0).y)) / (curveA p0 p1 p2).y) := by
  simp only [scanlineRoots]
  rw [if_pos hA, if_neg (not_le.mpr hR)]

theorem scanlineRoots_linear_neg (p0 p1 p2 : Vec2)
    (hA : |(curveA p0 p1 p2).y| < 1e-5) (hlt : p0.y < p2.y) :
    scanlineRoots p0 p1 p2 = some (-1, p0.y / (p0.y - p2.y)) := by
  simp only [scanlineRoots]
  rw [if_neg (not_le.mpr hA), if_neg (sub_ne_zero.mpr hlt.ne), if_pos hlt]

theorem scanlineRoots_linear_nonneg (p0 p1 p2 : Vec2)
    (hA : |(curveA p0 p1 p2).y| < 1e-5) (hne : p0.y ≠ p2.y)
    (hge : ¬ p0.y < p2.y) :
    scanlineRoots p0 p1 p2 = some (p0.y / (p0.y - p2.y), -1) := by
  simp only [scanlineRoots]
  rw [if_neg (not_le.mpr hA), if_neg (sub_ne_zero.mpr hne), if_neg hge]

theorem scanlineRoots_linear_degenerate (p0 p1 p2 : Vec2)
    (hA : |(curveA p0 p1 p2).y| < 1e-5) (hden : p0.y - p2.y = 0) :
    scanlineRoots p0 p1 p2 = some (-1, -1) := by
  have heq : p0.y = p2.y := sub_eq_zero.mp hden
  simp only [scanlineRoots]
  rw [if_neg (not_le.mpr hA), if_pos hden,
    if_neg (by rw [heq]; exact lt_irrefl p2.y)]

theorem signedDelta_of_none (ssaa : Bool) (idm p0 p1 p2 : Vec2)
    (h : scanlineRoots p0 p1 p2 = none) :
    signedDelta ssaa idm p0 p1 p2 = 0 := by
  simp only [signedDelta, h]
  split_ifs <;> rfl

theorem signedDelta_of_some (ssaa : Bool) (idm p0 p1 p2 : Vec2) (t0 t1 : ℝ)
    (hrej : ¬(p0.y > 0 ∧ p1.y > 0 ∧ p2.y > 0)
      ∧ ¬(p0.y < 0 ∧ p1.y < 0 ∧ p2.y < 0))
    (h : scanlineRoots p0 p1 p2 = some (t0, t1)) :
    signedDelta ssaa idm p0 p1 p2 =
      accumAlpha idm.x (curveA p0 p1 p2) (curveB p0 p1) (curveC p0) t0 t1
        + (if ssaa then
            accumAlpha idm.y (curveA p0 p1 p2) (curveB p0 p1) (curveC p0) t0 t1
          else 0) := by
  simp only [signedDelta, h]
  rw [if_neg hrej.1, if_neg hrej.2]

theorem computeCoverage_of_delta_zero (ssaa : Bool) (idm p0 p1 p2 : Vec2)
    (h : signedDelta ssaa idm p0 p1 p2 = 0) :
    computeCoverage ssaa idm p0 p1 p2 = 0 := by
  rw [computeCoverage, h, clamp_zero]

/-- C5: a curve whose three y-coordinates are all strictly positive or all
strictly negative makes the evaluator return exactly 0; in the definition
of signedDelta this early branch precedes scanlineRoots, so no
root-finding is involved. -/
theorem trivial_reject_zero (ssaa : Bool) (idm p0 p1 p2 : Vec2)
    (h : (p0.y > 0 ∧ p1.y > 0 ∧ p2.y > 0)
      ∨ (p0.y < 0 ∧ p1.y < 0 ∧ p2.y < 0)) :
    signedDelta ssaa idm p0 p1 p2 = 0
      ∧ computeCoverage ssaa idm p0 p1 p2 = 0 := by
  have hz : signedDelta ssaa idm p0 p1 p2 = 0 := by
    rcases h with h | h
    · simp only [signedDelta]
      rw [if_pos h]
    · have hnotpos : ¬(p0.y > 0 ∧ p1.y > 0 ∧ p2.y > 0) := by
        intro h2
        exact absurd h2.1 (not_lt.mpr h.1.le)
      simp only [signedDelta]
      rw [if_neg hnotpos, if_pos h]
  exact ⟨hz, computeCoverage_of_delta_zero ssaa idm p0 p1 p2 hz⟩

theorem trivial_reject_zero_witness :
    (signedDelta false ⟨1, 1⟩ ⟨0, 1⟩ ⟨5, 2⟩ ⟨9, 3⟩ = 0
      ∧ computeCoverage false ⟨1, 1⟩ ⟨0, 1⟩ ⟨5, 2⟩ ⟨9, 3⟩ = 0)
    ∧ (signedDelta true ⟨1, 1⟩ ⟨0, -1⟩ ⟨5, -2⟩ ⟨9, -3⟩ = 0
      ∧ computeCoverage true ⟨1, 1⟩ ⟨0, -1⟩ ⟨5, -2⟩ ⟨9, -3⟩ = 0) :=
  ⟨trivial_reject_zero false ⟨1, 1⟩ ⟨0, 1⟩ ⟨5, 2⟩ ⟨9, 3⟩ (Or.inl (by norm_num)),
   trivial_reject_zero true ⟨1, 1⟩ ⟨0, -1⟩ ⟨5, -2⟩ ⟨9, -3⟩ (Or.inr (by norm_num))⟩

/-- C6: on the quadratic branch (|a.y| >= 1e-5) with radicand
b.y * b.y - a.y * c.y <= 0, including exact tangency radicand = 0, the
evaluator deterministically returns exactly 0: the root finder takes its
early-return branch and the result is the well-defined value 0. -/
theorem nonpositive_radicand_zero (ssaa : Bool) (idm p0 p1 p2 : Vec2)
    (hA : |(curveA p0 p1 p2).y| ≥ 1e-5)
    (hR : (curveB p0 p1).y * (curveB p0 p1).y
        - (curveA p0 p1 p2).y * (curveC p0).y ≤ 0) :
    scanlineRoots p0 p1 p2 = none
      ∧ signedDelta ssaa idm p0 p1 p2 = 0
      ∧ computeCoverage ssaa idm p0 p1 p2 = 0 := by
  have hroots := scanlineRoots_of_nonpos_radicand p0 p1 p2 hA hR
  have hz := signedDelta_of_none ssaa idm p0 p1 p2 hroots
  exact ⟨hroots, hz, computeCoverage_of_delta_zero ssaa idm p0 p1 p2 hz⟩

theorem nonpositive_radicand_zero_witness :
    scanlineRoots ⟨0, 0⟩ ⟨0, 0⟩ ⟨0, 1⟩ = none
      ∧ signedDelta true ⟨1, 1⟩ ⟨0, 0⟩ ⟨0, 0⟩ ⟨0, 1⟩ = 0
      ∧ computeCoverage true ⟨1, 1⟩ ⟨0, 0⟩ ⟨0, 0⟩ ⟨0, 1⟩ = 0 :=
  nonpositive_radicand_zero true ⟨1, 1⟩ ⟨0, 0⟩ ⟨0, 0⟩ ⟨0, 1⟩
    (by norm_num [curveA_y]) (by norm_num [curveA_y, curveB_y, curveC_y])

/-- C10: the evaluator is a pure function of its inputs, with the shader
globals folded into the explicit arguments; equal inputs give identical
outputs with no hidden state. -/
theorem coverage_deterministic (s1 s2 : Bool) (d1 d2 q0 q1 q2 r0 r1 r2 : Vec2)
    (hs : s1 = s2) (hd : d1 = d2) (h0 : q0 = r0) (h1 : q1 = r1)
    (h2 : q2 = r2) :
    computeCoverage s1 d1 q0 q1 q2 = computeCoverage s2 d2 r0 r1 r2 := by
  rw [hs, hd, h0, h1, h2]

theorem coverage_deterministic_witness :
    computeCoverage false ⟨1, 1⟩ ⟨0, 1⟩ ⟨0, 0⟩ ⟨0, -1⟩
      = computeCoverage false ⟨1, 1⟩ ⟨0, 1⟩ ⟨0, 0⟩ ⟨0, -1⟩ :=
  coverage_deterministic false false ⟨1, 1⟩ ⟨1, 1⟩ ⟨0, 1⟩ ⟨0, 0⟩ ⟨0, -1⟩
    ⟨0, 1⟩ ⟨0, 0⟩ ⟨0, -1⟩ rfl rfl rfl rfl rfl

/-- C3 counterexample: at the curve p0 = (0,-1), p1 = (0,0), p2 = (0,1)
with inverseDiameter (1,1) and supersampling off, the accumulated signed
delta is -1/2, yet the evaluator returns 0: the returned value is the
per-curve clamp of the delta, not the unclamped delta, and it cannot lie
outside [0,1]. -/
theorem coverage_unclamped_counterexample :
    signedDelta false ⟨1, 1⟩ ⟨0, -1⟩ ⟨0, 0⟩ ⟨0, 1⟩ = -(1/2)
      ∧ computeCoverage false ⟨1, 1⟩ ⟨0, -1⟩ ⟨0, 0⟩ ⟨0, 1⟩ = 0
      ∧ (0 : ℝ) ≠ -(1/2) := by
  refine ⟨?_, ?_, by norm_num⟩ <;>
    norm_num [computeCoverage, signedDelta, scanlineRoots, curveA, curveB,
      curveC, accumAlpha, rampContribution, clamp, vec2_sub_x, vec2_sub_y,
      vec2_add_x, vec2_add_y, vec2_smul_x, vec2_smul_y]

/-- C3 amended: computeCoverage applies the final clamp itself, per curve:
it returns clamp(signedDelta, 0, 1), so every single evaluation lies in
[0, 1]. -/
theorem coverage_returns_clamped (ssaa : Bool) (idm p0 p1 p2 : Vec2) :
    computeCoverage ssaa idm p0 p1 p2
        = clamp (signedDelta ssaa idm p0 p1 p2) 0 1
      ∧ 0 ≤ computeCoverage ssaa idm p0 p1 p2
      ∧ computeCoverage ssaa idm p0 p1 p2 ≤ 1 :=
  ⟨rfl, clamp_nonneg _, clamp_le_one _⟩

/-- C9 counterexample: the horizontal curve p0 = (0,0), p1 = (1,0),
p2 = (2,0) passes both trivial-reject tests, takes the linear branch since
its a.y is 0, and its divisor p0.y - p2.y is exactly 0, so the unguarded
division of the linear branch can divide by zero. -/
theorem linear_divisor_zero_counterexample :
    ¬((⟨0, 0⟩ : Vec2).y > 0 ∧ (⟨1, 0⟩ : Vec2).y > 0 ∧ (⟨2, 0⟩ : Vec2).y > 0)
      ∧ ¬((⟨0, 0⟩ : Vec2).y < 0 ∧ (⟨1, 0⟩ : Vec2).y < 0
          ∧ (⟨2, 0⟩ : Vec2).y < 0)
      ∧ |(curveA ⟨0, 0⟩ ⟨1, 0⟩ ⟨2, 0⟩).y| < 1e-5
      ∧ (⟨0, 0⟩ : Vec2).y - (⟨2, 0⟩ : Vec2).y = 0 := by
  norm_num [curveA_y]

/-- C9 amended: when the linear branch is taken with a zero divisor the
IEEE quotient is NaN or an infinity, every one of which fails the
0 <= t < 1 validity test (the model writes the sentinel -1), so the
evaluator still deterministically returns 0. -/
theorem linear_divisor_zero_safe (ssaa : Bool) (idm p0 p1 p2 : Vec2)
    (hA : |(curveA p0 p1 p2).y| < 1e-5) (hden : p0.y - p2.y = 0) :
    scanlineRoots p0 p1 p2 = some (-1, -1)
      ∧ signedDelta ssaa idm p0 p1 p2 = 0
      ∧ computeCoverage ssaa idm p0 p1 p2 = 0 := by
  have hroots := scanlineRoots_linear_degenerate p0 p1 p2 hA hden
  have hz : signedDelta ssaa idm p0 p1 p2 = 0 := by
    simp only [signedDelta, hroots]
    split_ifs <;>
      simp [accumAlpha, rampContribution_sentinel]
  exact ⟨hroots, hz, computeCoverage_of_delta_zero ssaa idm p0 p1 p2 hz⟩

theorem linear_divisor_zero_safe_witness :
    scanlineRoots ⟨0, 0⟩ ⟨1, 0⟩ ⟨2, 0⟩ = some (-1, -1)
      ∧ signedDelta true ⟨1, 1⟩ ⟨0, 0⟩ ⟨1, 0⟩ ⟨2, 0⟩ = 0
      ∧ computeCoverage true ⟨1, 1⟩ ⟨0, 0⟩ ⟨1, 0⟩ ⟨2, 0⟩ = 0 :=
  linear_divisor_zero_safe true ⟨1, 1⟩ ⟨0, 0⟩ ⟨1, 0⟩ ⟨2, 0⟩
    (by norm_num [curveA_y]) (by norm_num)

/-- C8: when a.y is exactly 0 (so p1.y is the midpoint of p0.y and p2.y)
and p0.y is not p2.y, the linear-branch root p0.y / (p0.y - p2.y) equals
c.y / (2 * b.y), the root of the linearized equation
-2 * b.y * t + c.y = 0, which is the limit of the quadratic-branch root
as a.y tends to 0; and scanlineRoots indeed places that value in one of
its two root slots. -/
theorem linear_root_matches_quadratic_limit (p0 p1 p2 : Vec2)
    (hA : (curveA p0 p1 p2).y = 0) (hne : p0.y ≠ p2.y) :
    p0.y / (p0.y - p2.y) = (curveC p0).y / (2 * (curveB p0 p1).y)
      ∧ -(2 * (curveB p0 p1).y) * (p0.y / (p0.y - p2.y)) + (curveC p0).y = 0
      ∧ (scanlineRoots p0 p1 p2 = some (-1, p0.y / (p0.y - p2.y))
          ∨ scanlineRoots p0 p1 p2 = some (p0.y / (p0.y - p2.y), -1)) := by
  have hden : p0.y - p2.y ≠ 0 := sub_ne_zero.mpr hne
  have hb : 2 * (curveB p0 p1).y = p0.y - p2.y := by
    rw [curveB_y]
    rw [curveA_y] at hA
    linarith
  have habs : |(curveA p0 p1 p2).y| < 1e-5 := by
    rw [hA]
    norm_num
  refine ⟨?_, ?_, ?_⟩
  · rw [hb, curveC_y]
  · rw [hb, curveC_y, neg_mul, mul_comm (p0.y - p2.y),
      div_mul_cancel₀ p0.y hden]
    ring
  · rcases lt_or_le p0.y p2.y with hlt | hge
    · exact Or.inl (scanlineRoots_linear_neg p0 p1 p2 habs hlt)
    · exact Or.inr
        (scanlineRoots_linear_nonneg p0 p1 p2 habs hne (not_lt.mpr hge))

theorem linear_root_matches_quadratic_limit_witness :
    (⟨0, 1⟩ : Vec2).y / ((⟨0, 1⟩ : Vec2).y - (⟨0, -1⟩ : Vec2).y)
        = (curveC ⟨0, 1⟩).y / (2 * (curveB ⟨0, 1⟩ ⟨0, 0⟩).y)
      ∧ -(2 * (curveB ⟨0, 1⟩ ⟨0, 0⟩).y)
            * ((⟨0, 1⟩ : Vec2).y / ((⟨0, 1⟩ : Vec2).y - (⟨0, -1⟩ : Vec2).y))
          + (curveC ⟨0, 1⟩).y = 0
      ∧ (scanlineRoots ⟨0, 1⟩ ⟨0, 0⟩ ⟨0, -1⟩
            = some (-1, (⟨0, 1⟩ : Vec2).y
                / ((⟨0, 1⟩ : Vec2).y - (⟨0, -1⟩ : Vec2).y))
          ∨ scanlineRoots ⟨0, 1⟩ ⟨0, 0⟩ ⟨0, -1⟩
            = some ((⟨0, 1⟩ : Vec2).y
                / ((⟨0, 1⟩ : Vec2).y - (⟨0, -1⟩ : Vec2).y), -1)) :=
  linear_root_matches_quadratic_limit ⟨0, 1⟩ ⟨0, 0⟩ ⟨0, -1⟩
    (by norm_num [curveA_y]) (by norm_num)

/-- C1: for a curve passing the trivial reject, the root finder follows
the source exactly: a = p0 - 2*p1 + p2, b = p0 - p1, c = p0; on the
quadratic branch (|a.y| >= 1e-5) a non-positive radicand ends the
evaluation with 0 and a positive radicand gives the roots
(b.y - sqrt radicand) / a.y and (b.y + sqrt radicand) / a.y; on the
linear branch the single root p0.y / (p0.y - p2.y) lands in the t1 slot
when p0.y - p2.y is negative and in the t0 slot otherwise, the other slot
holding the sentinel -1, which contributes nothing since it fails the
[0, 1) validity test. -/
theorem roots_follow_source (ssaa : Bool) (idm p0 p1 p2 : Vec2)
    (_hrej : ¬(p0.y > 0 ∧ p1.y > 0 ∧ p2.y > 0)
      ∧ ¬(p0.y < 0 ∧ p1.y < 0 ∧ p2.y < 0)) :
    curveA p0 p1 p2 = p0 - (2 : ℝ) * p1 + p2
      ∧ curveB p0 p1 = p0 - p1
      ∧ curveC p0 = p0
      ∧ (|(curveA p0 p1 p2).y| ≥ 1e-5 →
          ((curveB p0 p1).y * (curveB p0 p1).y
              - (curveA p0 p1 p2).y * (curveC p0).y ≤ 0 →
            scanlineRoots p0 p1 p2 = none
              ∧ computeCoverage ssaa idm p0 p1 p2 = 0)
          ∧ (0 < (curveB p0 p1).y * (curveB p0 p1).y
              - (curveA p0 p1 p2).y * (curveC p0).y →
            scanlineRoots p0 p1 p2 =
              some (((curveB p0 p1).y
                  - Real.sqrt ((curveB p0 p1).y * (curveB p0 p1).y
                    - (curveA p0 p1 p2).y * (curveC p0).y))
                    / (curveA p0 p1 p2).y,
                ((curveB p0 p1).y
                  + Real.sqrt ((curveB p0 p1).y * (curveB p0 p1).y
                    - (curveA p0 p1 p2).y * (curveC p0).y))
                    / (curveA p0 p1 p2).y)))
      ∧ (|(curveA p0 p1 p2).y| < 1e-5 → p0.y - p2.y ≠ 0 →
          (p0.y - p2.y < 0 →
            scanlineRoots p0 p1 p2 = some (-1, p0.y / (p0.y - p2.y)))
          ∧ (¬ p0.y - p2.y < 0 →
            scanlineRoots p0 p1 p2 = some (p0.y / (p0.y - p2.y), -1)))
      ∧ (∀ (d : ℝ) (a b c : Vec2), rampContribution d a b c (-1) = 0) := by
  refine ⟨rfl, rfl, rfl, fun hA => ⟨fun hR => ?_, fun hR => ?_⟩,
    fun hA hden => ⟨fun hlt => ?_, fun hge => ?_⟩,
    rampContribution_sentinel⟩
  · have hroots := scanlineRoots_of_nonpos_radicand p0 p1 p2 hA hR
    exact ⟨hroots, computeCoverage_of_delta_zero ssaa idm p0 p1 p2
      (signedDelta_of_none ssaa idm p0 p1 p2 hroots)⟩
  · exact scanlineRoots_of_pos_radicand p0 p1 p2 hA hR
  · exact scanlineRoots_linear_neg p0 p1 p2 hA (sub_neg.mp hlt)
  · refine scanlineRoots_linear_nonneg p0 p1 p2 hA ?_ ?_
    · exact fun heq => hden (by rw [heq, sub_self])
    · exact fun hlt => hge (sub_neg.mpr hlt)

theorem roots_follow_source_witness :
    scanlineRoots ⟨0, 1⟩ ⟨0, 0⟩ ⟨0, -1⟩
        = some ((⟨0, 1⟩ : Vec2).y
            / ((⟨0, 1⟩ : Vec2).y - (⟨0, -1⟩ : Vec2).y), -1)
      ∧ scanlineRoots ⟨0, -1⟩ ⟨0, -1⟩ ⟨0, 1⟩
        = some (((curveB ⟨0, -1⟩ ⟨0, -1⟩).y
              - Real.sqrt ((curveB ⟨0, -1⟩ ⟨0, -1⟩).y
                  * (curveB ⟨0, -1⟩ ⟨0, -1⟩).y
                - (curveA ⟨0, -1⟩ ⟨0, -1⟩ ⟨0, 1⟩).y * (curveC ⟨0, -1⟩).y))
              / (curveA ⟨0, -1⟩ ⟨0, -1⟩ ⟨0, 1⟩).y,
            ((curveB ⟨0, -1⟩ ⟨0, -1⟩).y
              + Real.sqrt ((curveB ⟨0, -1⟩ ⟨0, -1⟩).y
                  * (curveB ⟨0, -1⟩ ⟨0, -1⟩).y
                - (curveA ⟨0, -1⟩ ⟨0, -1⟩ ⟨0, 1⟩).y * (curveC ⟨0, -1⟩).y))
              / (curveA ⟨0, -1⟩ ⟨0, -1⟩ ⟨0, 1⟩).y) :=
  ⟨((roots_follow_source false ⟨1, 1⟩ ⟨0, 1⟩ ⟨0, 0⟩ ⟨0, -1⟩
        (by norm_num)).2.2.2.2.1
      (by norm_num [curveA_y]) (by norm_num)).2 (by norm_num),
   ((roots_follow_source false ⟨1, 1⟩ ⟨0, -1⟩ ⟨0, -1⟩ ⟨0, 1⟩
        (by norm_num)).2.2.2.1
      (by norm_num [curveA_y])).2
      (by norm_num [curveA_y, curveB_y, curveC_y])⟩

/-- C2: each root t with 0 <= t < 1 (t = 1 excluded) contributes the
clamp ramp of the local x-coordinate x(t) = (a.x*t - 2*b.x)*t + c.x,
added for the t0 slot and subtracted for the t1 slot; a root outside
[0, 1) contributes exactly 0; and the accumulated delta of the evaluator
is precisely that signed sum (doubled through inverseDiameter.y when
supersampling is on). -/
theorem crossing_accumulation_follows_source (ssaa : Bool)
    (idm p0 p1 p2 : Vec2) (t0 t1 : ℝ)
    (hrej : ¬(p0.y > 0 ∧ p1.y > 0 ∧ p2.y > 0)
      ∧ ¬(p0.y < 0 ∧ p1.y < 0 ∧ p2.y < 0))
    (hroots : scanlineRoots p0 p1 p2 = some (t0, t1)) :
    (∀ (d : ℝ) (a b c : Vec2) (t : ℝ), 0 ≤ t → t < 1 →
        rampContribution d a b c t
          = clamp (((a.x * t - 2 * b.x) * t + c.x) * d + 0.5) 0 1)
      ∧ (∀ (d : ℝ) (a b c : Vec2) (t : ℝ), ¬(0 ≤ t ∧ t < 1) →
          rampContribution d a b c t = 0)
      ∧ signedDelta ssaa idm p0 p1 p2
          = (rampContribution idm.x (curveA p0 p1 p2) (curveB p0 p1)
                (curveC p0) t0
              - rampContribution idm.x (curveA p0 p1 p2) (curveB p0 p1)
                (curveC p0) t1)
            + (if ssaa then
                rampContribution idm.y (curveA p0 p1 p2) (curveB p0 p1)
                    (curveC p0) t0
                  - rampContribution idm.y (curveA p0 p1 p2) (curveB p0 p1)
                    (curveC p0) t1
              else 0) := by
  refine ⟨fun d a b c t h0 h1 => ?_, fun d a b c t h => ?_, ?_⟩
  · rw [rampContribution, if_pos (And.intro h0 h1)]
  · rw [rampContribution, if_neg h]
  · rw [signedDelta_of_some ssaa idm p0 p1 p2 t0 t1 hrej hroots,
      accumAlpha, accumAlpha]

theorem crossing_accumulation_follows_source_witness :
    signedDelta false ⟨1, 1⟩ ⟨0, 1⟩ ⟨0, 0⟩ ⟨0, -1⟩
        = (rampContribution 1 (curveA ⟨0, 1⟩ ⟨0, 0⟩ ⟨0, -1⟩)
              (curveB ⟨0, 1⟩ ⟨0, 0⟩) (curveC ⟨0, 1⟩) (1/2)
            - rampContribution 1 (curveA ⟨0, 1⟩ ⟨0, 0⟩ ⟨0, -1⟩)
              (curveB ⟨0, 1⟩ ⟨0, 0⟩) (curveC ⟨0, 1⟩) (-1))
      ∧ rampContribution 1 (curveA ⟨0, 1⟩ ⟨0, 0⟩ ⟨0, -1⟩)
          (curveB ⟨0, 1⟩ ⟨0, 0⟩) (curveC ⟨0, 1⟩) 1 = 0 := by
  have h := crossing_accumulation_follows_source false ⟨1, 1⟩
    ⟨0, 1⟩ ⟨0, 0⟩ ⟨0, -1⟩ (1/2) (-1) (by norm_num)
    (by norm_num [scanlineRoots, curveA_y, curveB_y, curveC])
  refine ⟨?_, h.2.1 1 _ _ _ 1 (by norm_num)⟩
  have h3 := h.2.2
  simpa using h3

theorem negY_x (v : Vec2) : (negY v).x = v.x := rfl

theorem negY_y (v : Vec2) : (negY v).y = -v.y := rfl

theorem curveA_negY (p0 p1 p2 : Vec2) :
    curveA (negY p0) (negY p1) (negY p2) = negY (curveA p0 p1 p2) := by
  ext
  · simp [curveA, negY, vec2_add_x, vec2_sub_x, vec2_smul_x]
  · simp [curveA, negY, vec2_add_y, vec2_sub_y, vec2_smul_y]
    ring

theorem curveB_negY (p0 p1 : Vec2) :
    curveB (negY p0) (negY p1) = negY (curveB p0 p1) := by
  ext
  · simp [curveB, negY, vec2_sub_x]
  · simp [curveB, negY, vec2_sub_y]
    ring

theorem curveC_negY (p0 : Vec2) : curveC (negY p0) = negY (curveC p0) := rfl

theorem rampContribution_negY (d : ℝ) (a b c : Vec2) (t : ℝ) :
    rampContribution d (negY a) (negY b) (negY c) t
      = rampContribution d a b c t := rfl

theorem accumAlpha_negY_swap (d : ℝ) (a b c : Vec2) (t0 t1 : ℝ) :
    accumAlpha d (negY a) (negY b) (negY c) t1 t0
      = - accumAlpha d a b c t0 t1 := by
  simp only [accumAlpha, rampContribution_negY]
  ring

theorem scanlineRoots_negY (p0 p1 p2 : Vec2) :
    scanlineRoots (negY p0) (negY p1) (negY p2)
      = Option.map Prod.swap (scanlineRoots p0 p1 p2) := by
  simp only [scanlineRoots, curveA_negY, curveB_negY, curveC_negY,
    negY_x, negY_y, abs_neg]
  by_cases hA : |(curveA p0 p1 p2).y| ≥ 1e-5
  · rw [if_pos hA, if_pos hA]
    have hrad : -(curveB p0 p1).y * -(curveB p0 p1).y
        - -(curveA p0 p1 p2).y * -(curveC p0).y
        = (curveB p0 p1).y * (curveB p0 p1).y
          - (curveA p0 p1 p2).y * (curveC p0).y := by ring
    rw [hrad]
    by_cases hR : (curveB p0 p1).y * (curveB p0 p1).y
        - (curveA p0 p1 p2).y * (curveC p0).y ≤ 0
    · rw [if_pos hR, if_pos hR]
      rfl
    · rw [if_neg hR, if_neg hR]
      have h1 : (-(curveB p0 p1).y
            - Real.sqrt ((curveB p0 p1).y * (curveB p0 p1).y
              - (curveA p0 p1 p2).y * (curveC p0).y))
            / -(curveA p0 p1 p2).y
          = ((curveB p0 p1).y
            + Real.sqrt ((curveB p0 p1).y * (curveB p0 p1).y
              - (curveA p0 p1 p2).y * (curveC p0).y))
            / (curveA p0 p1 p2).y := by
        rw [show -(curveB p0 p1).y
              - Real.sqrt ((curveB p0 p1).y * (curveB p0 p1).y
                - (curveA p0 p1 p2).y * (curveC p0).y)
            = -((curveB p0 p1).y
              + Real.sqrt ((curveB p0 p1).y * (curveB p0 p1).y
                - (curveA p0 p1 p2).y * (curveC p0).y)) from by ring,
          neg_div_neg_eq]
      have h2 : (-(curveB p0 p1).y
            + Real.sqrt ((curveB p0 p1).y * (curveB p0 p1).y
              - (curveA p0 p1 p2).y * (curveC p0).y))
            / -(curveA p0 p1 p2).y
          = ((curveB p0 p1).y
            - Real.sqrt ((curveB p0 p1).y * (curveB p0 p1).y
              - (curveA p0 p1 p2).y * (curveC p0).y))
            / (curveA p0 p1 p2).y := by
        rw [show -(curveB p0 p1).y
              + Real.sqrt ((curveB p0 p1).y * (curveB p0 p1).y
                - (curveA p0 p1 p2).y * (curveC p0).y)
            = -((curveB p0 p1).y
              - Real.sqrt ((curveB p0 p1).y * (curveB p0 p1).y
                - (curveA p0 p1 p2).y * (curveC p0).y)) from by ring,
          neg_div_neg_eq]
      rw [h1, h2]
      rfl
  · rw [if_neg hA, if_neg hA]
    have ht : (if -p0.y - -p2.y = 0 then (-1 : ℝ)
          else -p0.y / (-p0.y - -p2.y))
        = (if p0.y - p2.y = 0 then (-1 : ℝ) else p0.y / (p0.y - p2.y)) := by
      rw [show -p0.y - -p2.y = -(p0.y - p2.y) from by ring]
      simp only [neg_eq_zero, neg_div_neg_eq]
    rw [ht]
    rcases lt_trichotomy p0.y p2.y with h | h | h
    · rw [if_neg (by linarith : ¬ -p0.y < -p2.y), if_pos h]
      rfl
    · rw [if_neg (by linarith : ¬ -p0.y < -p2.y),
        if_neg (by linarith : ¬ p0.y < p2.y),
        if_pos (by rw [h, sub_self] : p0.y - p2.y = 0)]
      rfl
    · rw [if_pos (by linarith : -p0.y < -p2.y),
        if_neg (by linarith : ¬ p0.y < p2.y)]
      rfl

theorem signedDelta_reject (ssaa : Bool) (idm p0 p1 p2 : Vec2)
    (h : (p0.y > 0 ∧ p1.y > 0 ∧ p2.y > 0)
      ∨ (p0.y < 0 ∧ p1.y < 0 ∧ p2.y < 0)) :
    signedDelta ssaa idm p0 p1 p2 = 0 := by
  rcases h with h | h
  · simp only [signedDelta]
    rw [if_pos h]
  · have hnp : ¬(p0.y > 0 ∧ p1.y > 0 ∧ p2.y > 0) := fun h2 =>
      absurd h2.1 (not_lt.mpr h.1.le)
    simp only [signedDelta]
    rw [if_neg hnp, if_pos h]

/-- C7 amended: negating every y-coordinate flips the sign of the
accumulated signed delta and keeps its absolute value; the per-curve final
clamp then maps the two deltas to clamp(d) and clamp(-d), whose absolute
values need not agree (see the counterexample). -/
theorem signedDelta_reflection (ssaa : Bool) (idm p0 p1 p2 : Vec2) :
    signedDelta ssaa idm (negY p0) (negY p1) (negY p2)
        = - signedDelta ssaa idm p0 p1 p2
      ∧ |signedDelta ssaa idm (negY p0) (negY p1) (negY p2)|
        = |signedDelta ssaa idm p0 p1 p2| := by
  have hmain : signedDelta ssaa idm (negY p0) (negY p1) (negY p2)
      = - signedDelta ssaa idm p0 p1 p2 := by
    by_cases hq : p0.y > 0 ∧ p1.y > 0 ∧ p2.y > 0
    · have h2 := signedDelta_reject ssaa idm p0 p1 p2 (Or.inl hq)
      have h1 : signedDelta ssaa idm (negY p0) (negY p1) (negY p2) = 0 :=
        signedDelta_reject ssaa idm (negY p0) (negY p1) (negY p2)
          (Or.inr (by simp only [negY_y, neg_lt_zero]; exact hq))
      rw [h1, h2, neg_zero]
    · by_cases hp : p0.y < 0 ∧ p1.y < 0 ∧ p2.y < 0
      · have h2 := signedDelta_reject ssaa idm p0 p1 p2 (Or.inr hp)
        have h1 : signedDelta ssaa idm (negY p0) (negY p1) (negY p2) = 0 :=
          signedDelta_reject ssaa idm (negY p0) (negY p1) (negY p2)
            (Or.inl (by simp only [negY_y, gt_iff_lt, neg_pos]; exact hp))
        rw [h1, h2, neg_zero]
      · have hrej : ¬(p0.y > 0 ∧ p1.y > 0 ∧ p2.y > 0)
            ∧ ¬(p0.y < 0 ∧ p1.y < 0 ∧ p2.y < 0) := ⟨hq, hp⟩
        have hrejneg : ¬((negY p0).y > 0 ∧ (negY p1).y > 0
              ∧ (negY p2).y > 0)
            ∧ ¬((negY p0).y < 0 ∧ (negY p1).y < 0 ∧ (negY p2).y < 0) := by
          refine ⟨?_, ?_⟩
          · simp only [negY_y, gt_iff_lt, neg_pos]
            exact hp
          · simp only [negY_y, neg_lt_zero]
            exact hq
        rcases hroots : scanlineRoots p0 p1 p2 with _ | ⟨t0, t1⟩
        · rw [signedDelta_of_none ssaa idm p0 p1 p2 hroots,
            signedDelta_of_none ssaa idm (negY p0) (negY p1) (negY p2)
              (by rw [scanlineRoots_negY, hroots]; rfl),
            neg_zero]
        · rw [signedDelta_of_some ssaa idm (negY p0) (negY p1) (negY p2)
              t1 t0 hrejneg (by rw [scanlineRoots_negY, hroots]; rfl),
            signedDelta_of_some ssaa idm p0 p1 p2 t0 t1 hrej hroots,
            curveA_negY, curveB_negY, curveC_negY,
            accumAlpha_negY_swap, accumAlpha_negY_swap]
          cases ssaa
          · simp
          · simp only [if_true]
            ring
  exact ⟨hmain, by rw [hmain, abs_neg]⟩

/-- C7 counterexample: for the curve p0 = (0,1), p1 = (0,0), p2 = (0,-1)
with inverseDiameter (1,1) and supersampling off, the evaluator returns
1/2, but on the y-negated input it returns 0: the returned (clamped)
contribution neither keeps its absolute value nor flips its sign. -/
theorem reflection_counterexample :
    computeCoverage false ⟨1, 1⟩ ⟨0, 1⟩ ⟨0, 0⟩ ⟨0, -1⟩ = 1/2
      ∧ computeCoverage false ⟨1, 1⟩ (negY ⟨0, 1⟩) (negY ⟨0, 0⟩)
          (negY ⟨0, -1⟩) = 0
      ∧ ¬(|computeCoverage false ⟨1, 1⟩ (negY ⟨0, 1⟩) (negY ⟨0, 0⟩)
              (negY ⟨0, -1⟩)|
            = |computeCoverage false ⟨1, 1⟩ ⟨0, 1⟩ ⟨0, 0⟩ ⟨0, -1⟩|
          ∧ computeCoverage false ⟨1, 1⟩ (negY ⟨0, 1⟩) (negY ⟨0, 0⟩)
              (negY ⟨0, -1⟩)
            = - computeCoverage false ⟨1, 1⟩ ⟨0, 1⟩ ⟨0, 0⟩ ⟨0, -1⟩) := by
  have e1 : computeCoverage false ⟨1, 1⟩ ⟨0, 1⟩ ⟨0, 0⟩ ⟨0, -1⟩ = 1/2 := by
    norm_num [computeCoverage, signedDelta, scanlineRoots, curveA, curveB,
      curveC, accumAlpha, rampContribution, clamp, vec2_sub_x, vec2_sub_y,
      vec2_add_x, vec2_add_y, vec2_smul_x, vec2_smul_y]
  have e2 : computeCoverage false ⟨1, 1⟩ (negY ⟨0, 1⟩) (negY ⟨0, 0⟩)
      (negY ⟨0, -1⟩) = 0 := by
    norm_num [computeCoverage, signedDelta, scanlineRoots, curveA, curveB,
      curveC, accumAlpha, rampContribution, clamp, negY, vec2_sub_x,
      vec2_sub_y, vec2_add_x, vec2_add_y, vec2_smul_x, vec2_smul_y]
  refine ⟨e1, e2, fun hcontra => ?_⟩
  rw [e1, e2] at hcontra
  norm_num at hcontra

/-- C4: the source's supersampling pass does not use the rotated curve.
It computes rotated_p0, rotated_p1, rotated_p2 but never reads them,
reusing the primary roots t0, t1 and the primary x-coefficients with
inverseDiameter.y.  At p0 = (0,1), p1 = (0,0), p2 = (0,-1) with
inverseDiameter (1,1) the code doubles the primary 1/2 contribution and
returns 1, while the spec's rotated pass, evaluated on the truly rotated
curve, finds no scanline crossing, giving 1/2. -/
theorem supersampling_ignores_rotated_curve :
    computeCoverage true ⟨1, 1⟩ ⟨0, 1⟩ ⟨0, 0⟩ ⟨0, -1⟩ = 1
      ∧ computeCoverageSpec ⟨1, 1⟩ ⟨0, 1⟩ ⟨0, 0⟩ ⟨0, -1⟩ = 1/2
      ∧ computeCoverage true ⟨1, 1⟩ ⟨0, 1⟩ ⟨0, 0⟩ ⟨0, -1⟩
        ≠ computeCoverageSpec ⟨1, 1⟩ ⟨0, 1⟩ ⟨0, 0⟩ ⟨0, -1⟩ := by
  have e1 : computeCoverage true ⟨1, 1⟩ ⟨0, 1⟩ ⟨0, 0⟩ ⟨0, -1⟩ = 1 := by
    norm_num [computeCoverage, signedDelta, scanlineRoots, curveA, curveB,
      curveC, accumAlpha, rampContribution, clamp, vec2_sub_x, vec2_sub_y,
      vec2_add_x, vec2_add_y, vec2_smul_x, vec2_smul_y]
  have e2 : computeCoverageSpec ⟨1, 1⟩ ⟨0, 1⟩ ⟨0, 0⟩ ⟨0, -1⟩ = 1/2 := by
    norm_num [computeCoverageSpec, rotatedAlphaSpec, rotate90, scanlineRoots,
      curveA, curveB, curveC, accumAlpha, rampContribution, clamp,
      vec2_sub_x, vec2_sub_y, vec2_add_x, vec2_add_y, vec2_smul_x,
      vec2_smul_y]
  refine ⟨e1, e2, ?_⟩
  rw [e1, e2]
  norm_num
